import Mathlib

/-!
# Image digest resolution (`authn`) and reference parsing (`name`)

A shallow embedding of `authn/digest.go` and `authn/options.go`, and of the
reference parser exercised by `name/lib_test.go`.

Modelling conventions.

* A Go `string` is a Lean `String`.  The separators the code searches for
  (`@`, `/`, `.`) are ASCII, so searching by character and searching by byte
  find the same positions, and `len(s) > 0` is `s ≠ ""`.
* A Go result pair `(string, error)` is a Lean pair `String × Option Error`;
  `nil` is `none`.  An `error` is represented by its message.  A result pair
  whose value is `nil` whenever the error is set (`(authn.Keychain, error)`,
  `(*Image, error)`) is an `Except Error _`.
* Package-level variables are the fields of `Globals`; a function that writes
  one returns the new `Globals`.
* External collaborators (`k8schain.New`, `crane.Digest`,
  `publicsuffix.PublicSuffix`) are the fields of `World`.  Each call of
  `k8schain.New`, `authn.NewMultiKeychain` and `crane.Digest` is recorded in a
  list of `Call`s returned next to the result.
-/

namespace Authn

/-! ## The `strings` functions used by the code -/

/-- Scan for the first occurrence of `sep`: the characters before it, the
characters after it, and whether it was found.  When it is not found the first
component is the whole input and the second is empty. -/
def cutChars (sep : Char) : List Char → List Char × List Char × Bool
  | [] => ([], [], false)
  | c :: cs =>
    if c = sep then ([], cs, true)
    else
      let r := cutChars sep cs
      (c :: r.1, r.2.1, r.2.2)

/-- Go `strings.Cut(s, sep)` for a one-character separator: slices `s` around
the first instance of `sep`; if `sep` does not occur it is `(s, "", false)`. -/
def strings.Cut (s : String) (sep : Char) : String × String × Bool :=
  let r := cutChars sep s.data
  (String.mk r.1, String.mk r.2.1, r.2.2)

/-- Split at every occurrence of `sep`; the result always has at least one
element. -/
def splitChars (sep : Char) : List Char → List (List Char)
  | [] => [[]]
  | c :: cs =>
    if c = sep then [] :: splitChars sep cs
    else
      match splitChars sep cs with
      | [] => [[c]]
      | p :: ps => (c :: p) :: ps

/-- Go `strings.Split(s, sep)` for a one-character separator. -/
def strings.Split (s : String) (sep : Char) : List String :=
  (splitChars sep s.data).map String.mk

/-- Go `strings.ContainsRune(s, r)`. -/
def strings.ContainsRune (s : String) (r : Char) : Bool :=
  s.data.contains r

/-! ## Data -/

/-- Go `error`, represented by its message. -/
abbrev Error := String

/-- `ImageWithoutDigest` of `authn/digest.go`:
```go
if before, _, found := strings.Cut(image, "@"); found {
	if len(before) > 0 {
		return before, nil
	}
	return "", fmt.Errorf("invalid image: %s", image)
}
return image, nil
```
-/
def ImageWithoutDigest (image : String) : String × Option Error :=
  let r := strings.Cut image '@'
  if r.2.2 then
    if r.1.length > 0 then (r.1, none)
    else ("", some ("invalid image: " ++ image))
  else (image, none)

/-- Go `k8schain.Options`. -/
structure Options where
  Namespace : String
  ServiceAccountName : String
  ImagePullSecrets : List String
deriving DecidableEq

/-- The credential sources `CreateKeyChain` can put in a chain.  `κ` is the
type of the keychains `k8schain.New` returns, which this code never looks
inside. -/
inductive Keychain (κ : Type) where
  /-- Go `google.Keychain`. -/
  | googleKeychain
  /-- Go `authn.DefaultKeychain`. -/
  | DefaultKeychain
  /-- Go `github.Keychain`. -/
  | githubKeychain
  /-- The package variable `amazonKeychain` (ECR helper). -/
  | amazonKeychain
  /-- The package variable `azureKeychain` (ACR helper). -/
  | azureKeychain
  /-- A keychain returned by `k8schain.New`. -/
  | cluster (kChain : κ)
deriving DecidableEq

/-- The value of `authn.NewMultiKeychain(kcs...)`: the sources, in order. -/
structure MultiKeychain (κ : Type) where
  keychains : List (Keychain κ)
deriving DecidableEq

/-- The package-level variables of `authn/digest.go` and `authn/options.go`.
`once` is `true` when `once.Do` has already run.  `insecureRegistrySet` is a
`sets.String`, kept as the list of its elements. -/
structure Globals where
  insecureRegistries : List String
  once : Bool
  insecureRegistrySet : List String
  SkipImageDigest : String
  optsFromFlags : Options
deriving DecidableEq

/-- A recorded call of an external function. -/
inductive Call (Client κ : Type) where
  /-- Go `k8schain.New(ctx, client, opt)`. -/
  | k8schainNew (client : Client) (opt : Options)
  /-- Go `authn.NewMultiKeychain(kcs...)`. -/
  | NewMultiKeychain (kcs : List (Keychain κ))
  /-- Go `crane.Digest(ref, crane.WithAuthFromKeychain(keyChain), transport)`,
  the transport having `InsecureSkipVerify = insecureSkipVerify`. -/
  | craneDigest (ref : String) (keyChain : MultiKeychain κ) (insecureSkipVerify : Bool)
deriving DecidableEq

/-- The external collaborators. -/
structure World (Client κ : Type) where
  /-- Go `k8schain.New(ctx, client, opt)`. -/
  k8schainNew : Client → Options → Except Error κ
  /-- Go `crane.Digest` with the given keychain and `InsecureSkipVerify`. -/
  craneDigest : String → MultiKeychain κ → Bool → Except Error String
  /-- Go `publicsuffix.PublicSuffix(domain)`: the suffix and whether it is
  ICANN managed. -/
  PublicSuffix : String → String × Bool

/-! ## `authn/options.go` -/

/-- `isOptionsSet`:
```go
return optsFromFlags.ServiceAccountName != "" || len(optsFromFlags.ImagePullSecrets) > 0
```
-/
def isOptionsSet (g : Globals) : Bool :=
  g.optsFromFlags.ServiceAccountName != "" || g.optsFromFlags.ImagePullSecrets.length > 0

/-! ## `authn/digest.go` -/

/-- The chain of the last `return` of `CreateKeyChain`. -/
def fallbackKeychains (κ : Type) : List (Keychain κ) :=
  [.googleKeychain, .DefaultKeychain, .githubKeychain, .amazonKeychain, .azureKeychain]

/-- The end of the first branch of `CreateKeyChain`:
```go
keychains = append(keychains, authn.DefaultKeychain)
return authn.NewMultiKeychain(keychains...), nil
```
-/
def CreateKeyChain.finish {Client κ : Type} (keychains : List (Keychain κ))
    (calls : List (Call Client κ)) :
    Except Error (MultiKeychain κ) × List (Call Client κ) :=
  let keychains := keychains ++ [.DefaultKeychain]
  (.ok ⟨keychains⟩, calls ++ [.NewMultiKeychain keychains])

/-- The second `if` of the first branch of `CreateKeyChain`, and what follows:
```go
if isOptionsSet() {
	kChain, err := k8schain.New(ctx, client, optsFromFlags)
	if err != nil {
		return nil, err
	}
	keychains = append(keychains, kChain)
}
```
-/
def CreateKeyChain.fromFlags {Client κ : Type} (w : World Client κ) (g : Globals)
    (client : Client) (keychains : List (Keychain κ)) (calls : List (Call Client κ)) :
    Except Error (MultiKeychain κ) × List (Call Client κ) :=
  if isOptionsSet g then
    match w.k8schainNew client g.optsFromFlags with
    | .error err => (.error err, calls ++ [.k8schainNew client g.optsFromFlags])
    | .ok kChain =>
      CreateKeyChain.finish (keychains ++ [.cluster kChain])
        (calls ++ [.k8schainNew client g.optsFromFlags])
  else CreateKeyChain.finish keychains calls

/-- `CreateKeyChain`.  `k8sOpts` is the `*k8schain.Options` argument, `none`
for `nil`.  The result `(nil, err)` is `.error err`; next to it, the external
calls made, in order.
```go
if k8sOpts != nil || isOptionsSet() {
	keychains := make([]authn.Keychain, 0, 3)
	if k8sOpts != nil {
		kChain, err := k8schain.New(ctx, client, *k8sOpts)
		if err != nil {
			return nil, err
		}
		keychains = append(keychains, kChain)
	}
	...
}
return authn.NewMultiKeychain(google.Keychain, authn.DefaultKeychain,
	github.Keychain, amazonKeychain, azureKeychain), nil
```
-/
def CreateKeyChain {Client κ : Type} (w : World Client κ) (g : Globals) (client : Client)
    (k8sOpts : Option Options) : Except Error (MultiKeychain κ) × List (Call Client κ) :=
  if k8sOpts.isSome || isOptionsSet g then
    match k8sOpts with
    | some opt =>
      match w.k8schainNew client opt with
      | .error err => (.error err, [.k8schainNew client opt])
      | .ok kChain =>
        CreateKeyChain.fromFlags w g client [.cluster kChain] [.k8schainNew client opt]
    | none => CreateKeyChain.fromFlags w g client [] []
  else
    (.ok ⟨fallbackKeychains κ⟩, [.NewMultiKeychain (fallbackKeychains κ)])

/-- The body of `once.Do` in `probablyInsecureRegistry`, run at most once:
```go
once.Do(func() {
	insecureRegistrySet = sets.NewString(insecureRegistries...)
})
```
-/
def onceDo (g : Globals) : Globals :=
  if g.once then g
  else { g with once := true, insecureRegistrySet := g.insecureRegistries }

/-- `probablyInsecureRegistry`; the second component is the package state
after the call.
```go
parts := strings.Split(s, "/")
if len(parts) > 1 && strings.ContainsRune(parts[0], '.') {
	once.Do(...)
	if insecureRegistrySet.Has(parts[0]) {
		return true
	}
	if _, icann := publicsuffix.PublicSuffix(parts[0]); !icann {
		return true
	}
}
return false
```
-/
def probablyInsecureRegistry (PublicSuffix : String → String × Bool) (g : Globals)
    (s : String) : Bool × Globals :=
  let parts := strings.Split s '/'
  if parts.length > 1 && strings.ContainsRune (parts.headD "") '.' then
    let g := onceDo g
    if g.insecureRegistrySet.contains (parts.headD "") then (true, g)
    else if !(PublicSuffix (parts.headD "")).2 then (true, g)
    else (false, g)
  else (false, g)

/-- `WithTLSSkipVerify`: the `InsecureSkipVerify` field of the transport it
builds, and the package state after the call. -/
def WithTLSSkipVerify (PublicSuffix : String → String × Bool) (g : Globals) (s : String) :
    Bool × Globals :=
  probablyInsecureRegistry PublicSuffix g s

/-- `ImageWithDigest`: the returned pair, the package state after the call and
the external calls made, in order.
```go
image, err := ImageWithoutDigest(image)
if err != nil {
	return "", err
}
if SkipImageDigest == "true" {
	return image, nil
}
keyChain, err := CreateKeyChain(context.TODO(), kc, k8sOpts)
if err != nil {
	return "", err
}
digest, err := crane.Digest(image, crane.WithAuthFromKeychain(keyChain), WithTLSSkipVerify(image))
if err != nil {
	return "", err
}
return image + "@" + digest, nil
```
-/
def ImageWithDigest {Client κ : Type} (w : World Client κ) (g : Globals) (kc : Client)
    (image : String) (k8sOpts : Option Options) :
    (String × Option Error) × Globals × List (Call Client κ) :=
  match ImageWithoutDigest image with
  | (_, some err) => (("", some err), g, [])
  | (image, none) =>
    if g.SkipImageDigest = "true" then ((image, none), g, [])
    else
      match CreateKeyChain w g kc k8sOpts with
      | (.error err, calls) => (("", some err), g, calls)
      | (.ok keyChain, calls) =>
        let tls := WithTLSSkipVerify w.PublicSuffix g image
        match w.craneDigest image keyChain tls.1 with
        | .error err => (("", some err), tls.2, calls ++ [.craneDigest image keyChain tls.1])
        | .ok digest =>
          ((image ++ "@" ++ digest, none), tls.2, calls ++ [.craneDigest image keyChain tls.1])

/-! ## Notions used to state the properties -/

/-- The first `/`-delimited segment of `s`: everything before the first `/`,
or all of `s` when it has none. -/
def firstSegment (s : String) : String :=
  String.mk (s.data.takeWhile (fun c => c != '/'))

/-- The exception set the classifier consults: the set fixed by the one-time
initialisation when it has run, and otherwise the configured list it will be
built from. -/
def Globals.exceptions (g : Globals) : List String :=
  if g.once then g.insecureRegistrySet else g.insecureRegistries

/-- Package state at process start with the given configuration: `once` not
yet run, `insecureRegistrySet` still `nil`. -/
def Globals.initial (insecureRegistries : List String) (SkipImageDigest : String)
    (optsFromFlags : Options) : Globals :=
  { insecureRegistries := insecureRegistries, once := false, insecureRegistrySet := [],
    SkipImageDigest := SkipImageDigest, optsFromFlags := optsFromFlags }

/-! ## Concrete collaborators and states for the examples -/

/-- A public-suffix oracle that reports every suffix as ICANN managed. -/
def pslAll : String → String × Bool := fun s => (s, true)

/-- A public-suffix oracle that reports no suffix as ICANN managed. -/
def pslNone : String → String × Bool := fun s => (s, false)

/-- Package state at start: no insecure registries, skip-digest switch off,
flag options carrying a namespace only. -/
def gUnset : Globals := Globals.initial [] "" ⟨"default", "", []⟩

/-- Package state at start with the flag `--image-pull-secrets=regcred`. -/
def gFlags : Globals := Globals.initial [] "" ⟨"default", "", ["regcred"]⟩

/-- Package state at start with the skip-digest switch on. -/
def gSkip : Globals := Globals.initial [] "true" ⟨"default", "", []⟩

/-- Collaborators that always succeed: `k8schain.New` yields a keychain named
after the namespace and service account, `crane.Digest` a fixed digest. -/
def wOk : World Unit String :=
  { k8schainNew := fun _ opt => .ok (opt.Namespace ++ "/" ++ opt.ServiceAccountName)
    craneDigest := fun _ _ _ => .ok "sha256:abc"
    PublicSuffix := pslAll }

/-- Collaborators that always fail. -/
def wFail : World Unit String :=
  { k8schainNew := fun _ _ => .error "cluster unreachable"
    craneDigest := fun _ _ _ => .error "registry unreachable"
    PublicSuffix := pslAll }

end Authn

/-! ## The reference parser of package `name` -/

namespace Name
open Authn

-- Equality of results is decidable, so that examples can be evaluated.
deriving instance DecidableEq for Except

/-- The `Image` struct the fixtures of `name/lib_test.go` are written in. -/
structure Image where
  Original : String
  Name : String
  Registry : String
  Repository : String
  Tag : String
  Digest : String
deriving DecidableEq

/-- Modelled from the spec: the split "on the last" separator of §4.1: the
characters before the last occurrence of `sep`, the characters after it, and
whether it was found. -/
def cutLastChars (sep : Char) (l : List Char) : List Char × List Char × Bool :=
  let r := cutChars sep l.reverse
  if r.2.2 then (r.2.1.reverse, r.1.reverse, true) else (l, [], false)

/-- Modelled from the spec: the default registry of §4.1 step 3. -/
def DefaultRegistry : String := "index.docker.io"

/-- Modelled from the spec: a hexadecimal digit (§4.1 step 1, `algorithm:hex`). -/
def isHexDigit (c : Char) : Bool :=
  c.isDigit || ('a' ≤ c && c ≤ 'f') || ('A' ≤ c && c ≤ 'F')

/-- Modelled from the spec: the `algorithm:hex` syntax of a digest (§4.1 steps
1 and 7): a non-empty alphanumeric algorithm name, a `:`, and a non-empty run of
hexadecimal digits. -/
def validDigest (d : List Char) : Bool :=
  let r := cutChars ':' d
  r.2.2 && !r.1.isEmpty && r.1.all Char.isAlphanum && !r.2.1.isEmpty && r.2.1.all isHexDigit

/-- Modelled from the spec: the tag syntax of §4.1 step 5: characters among
alphanumerics, `.`, `-` and `_`, at most 128 of them. -/
def validTag (t : List Char) : Bool :=
  t.all (fun c => c.isAlphanum || c = '.' || c = '-' || c = '_') && t.length ≤ 128

/-- Modelled from the spec: whether the segment in front of the first `/` is a
registry host (§4.1 step 2): it contains a `.` or a `:`, or is `localhost`. -/
def isRegistryHost (seg : List Char) : Bool :=
  seg.contains '.' || seg.contains ':' || seg = "localhost".data

/-- Modelled from the spec: the normalised registry host (§3 `Registry`).  The
spec's scenarios (§8) and every fixture of `name/lib_test.go` that names
`docker.io` report the registry `index.docker.io`: `docker.io` is the only
host rewritten. -/
def normalizeRegistry (seg : List Char) : String :=
  if seg = "docker.io".data then DefaultRegistry else String.mk seg

/-- Modelled from the spec: the canonical recomposed string of §3 `Name` and
§4.1 step 6. -/
def composeName (registry repository tag digest : String) : String :=
  if digest ≠ "" then registry ++ "/" ++ repository ++ "@" ++ digest
  else if tag ≠ "" then registry ++ "/" ++ repository ++ ":" ++ tag
  else registry ++ "/" ++ repository

/-- Modelled from the spec: `ParseReference` of `name/lib.go`, which is not among
the source files; only its test `name/lib_test.go` is.  The steps are those of
the spec's §4.1.

* Step 1: split on the last `@`.  An `@` with nothing in front of it is an
  error; a digest that is not `algorithm:hex` is an error.
* Step 2: split the rest on the first `/`; the part in front is the registry
  when it is a registry host, otherwise the whole rest is the repository path.
* Step 3: without an explicit registry the registry is `index.docker.io`.
* Step 5: a trailing `:tag` is split off the repository path at its last `:`; a
  non-empty tag that is not valid is an error, an empty one leaves `Tag` unset.
* Step 7: an empty repository is an error.  This is checked before step 4, which
  would otherwise hide it.
* Step 4: a repository without `/` on the default registry gets `library/` in
  front.
* Step 6: `Name` is composed from the parts.

The spec gives no character set for registries and repositories, so none is
checked. -/
def ParseReference (s : String) : Except Error Image :=
  let at_ := cutLastChars '@' s.data
  if at_.2.2 && at_.1.isEmpty then
    .error ("reference has digest but no repository: " ++ s)
  else if at_.2.2 && !validDigest at_.2.1 then
    .error ("invalid digest: " ++ String.mk at_.2.1)
  else
    let digest := String.mk at_.2.1
    let rest := at_.1
    let slash := cutChars '/' rest
    let explicit := slash.2.2 && isRegistryHost slash.1
    let registry := if explicit then normalizeRegistry slash.1 else DefaultRegistry
    let path := if explicit then slash.2.1 else rest
    let colon := cutLastChars ':' path
    if !validTag colon.2.1 then
      .error ("invalid tag: " ++ String.mk colon.2.1)
    else if colon.1.isEmpty then
      .error ("empty repository: " ++ s)
    else
      let tag := String.mk colon.2.1
      let repository :=
        if registry = DefaultRegistry && !colon.1.contains '/' then
          "library/" ++ String.mk colon.1
        else String.mk colon.1
      .ok { Original := s, Name := composeName registry repository tag digest,
            Registry := registry, Repository := repository, Tag := tag, Digest := digest }

/-- Modelled from the spec: the registry `ParseReference` finds in the part
`rest` in front of the digest (§4.1 steps 2 and 3); the `registry` of
`ParseReference`, named for stating its properties. -/
def registryOf (rest : List Char) : String :=
  let slash := cutChars '/' rest
  if slash.2.2 && isRegistryHost slash.1 then normalizeRegistry slash.1 else DefaultRegistry

/-- Modelled from the spec: the repository path, tag included, `ParseReference`
finds in the part `rest` in front of the digest (§4.1 step 2); the `path` of
`ParseReference`, named for stating its properties. -/
def pathOf (rest : List Char) : List Char :=
  let slash := cutChars '/' rest
  if slash.2.2 && isRegistryHost slash.1 then slash.2.1 else rest

/-- Modelled from the spec: the repository `ParseReference` reports for the
repository name `name` on `registry` (§4.1 step 4). -/
def repositoryOf (registry : String) (name : List Char) : String :=
  if registry = DefaultRegistry && !name.contains '/' then "library/" ++ String.mk name
  else String.mk name

/-- Modelled from the spec: what `ParseReference` does with the part `rest` in
front of the digest once the digest is split off and checked (§4.1 steps 2 to
7); the tail of `ParseReference`, named for stating its properties. -/
def parseRest (s : String) (rest digest : List Char) : Except Error Image :=
  let colon := cutLastChars ':' (pathOf rest)
  if !validTag colon.2.1 then
    .error ("invalid tag: " ++ String.mk colon.2.1)
  else if colon.1.isEmpty then
    .error ("empty repository: " ++ s)
  else
    .ok { Original := s,
          Name := composeName (registryOf rest) (repositoryOf (registryOf rest) colon.1)
            (String.mk colon.2.1) (String.mk digest),
          Registry := registryOf rest,
          Repository := repositoryOf (registryOf rest) colon.1,
          Tag := String.mk colon.2.1, Digest := String.mk digest }

/-- The image `TestParseReference` expects for the tag-and-digest reference
`gcr.io/google-containers/echoserver:1.10@sha256:cb5c...3229`. -/
def gcrImage : Image :=
  { Original := "gcr.io/google-containers/echoserver:1.10@sha256:cb5c1bddd1b5665e1867a7fa1b5fa843a47ee433bbb75d4293888b71def53229",
    Name := "gcr.io/google-containers/echoserver@sha256:cb5c1bddd1b5665e1867a7fa1b5fa843a47ee433bbb75d4293888b71def53229",
    Registry := "gcr.io", Repository := "google-containers/echoserver", Tag := "1.10",
    Digest := "sha256:cb5c1bddd1b5665e1867a7fa1b5fa843a47ee433bbb75d4293888b71def53229" }

end Name

namespace Authn

/-! ## Lemmas on the string functions -/

theorem cutChars_fst (sep : Char) (l : List Char) :
    (cutChars sep l).1 = l.takeWhile (fun c => c != sep) := by
  induction l with
  | nil => rfl
  | cons c cs ih =>
    by_cases h : c = sep
    · simp [cutChars, h]
    · simp [cutChars, h, ih]

theorem cutChars_found (sep : Char) (l : List Char) :
    (cutChars sep l).2.2 = decide (sep ∈ l) := by
  induction l with
  | nil => simp [cutChars]
  | cons c cs ih =>
    by_cases h : c = sep
    · simp [cutChars, h]
    · have h2 : ¬ sep = c := fun e => h e.symm
      simp [cutChars, h, h2, ih]

theorem cutChars_append (sep : Char) (before after : List Char) (h : sep ∉ before) :
    cutChars sep (before ++ sep :: after) = (before, after, true) := by
  induction before with
  | nil => simp [cutChars]
  | cons c cs ih =>
    have hc : ¬ c = sep := fun e => h (by simp [e])
    have hcs : sep ∉ cs := fun e => h (by simp [e])
    simp [cutChars, hc, ih hcs]

theorem cutChars_not_mem (sep : Char) (l : List Char) (h : sep ∉ l) :
    cutChars sep l = (l, [], false) := by
  induction l with
  | nil => rfl
  | cons c cs ih =>
    have hc : ¬ c = sep := fun e => h (by simp [e])
    have hcs : sep ∉ cs := fun e => h (by simp [e])
    simp [cutChars, hc, ih hcs]

theorem splitChars_ne_nil (sep : Char) (l : List Char) : splitChars sep l ≠ [] := by
  cases l with
  | nil => simp [splitChars]
  | cons c cs =>
    by_cases h : c = sep
    · simp [splitChars, h]
    · simp only [splitChars, h, if_false]
      split <;> simp

theorem splitChars_head (sep : Char) (l : List Char) :
    (splitChars sep l).headD [] = l.takeWhile (fun c => c != sep) := by
  induction l with
  | nil => rfl
  | cons c cs ih =>
    by_cases h : c = sep
    · simp [splitChars, h]
    · simp only [splitChars, h, if_false]
      split
      · next e => exact absurd e (splitChars_ne_nil sep cs)
      · next p ps e => simp [e] at ih; simp [h, ih]

theorem splitChars_length (sep : Char) (l : List Char) :
    decide ((splitChars sep l).length > 1) = decide (sep ∈ l) := by
  induction l with
  | nil => simp [splitChars]
  | cons c cs ih =>
    by_cases h : c = sep
    · have := splitChars_ne_nil sep cs
      have hpos : 0 < (splitChars sep cs).length := List.length_pos.mpr this
      simp [splitChars, h, hpos]
    · have h2 : ¬ sep = c := fun e => h e.symm
      simp only [splitChars, h, if_false]
      split
      · next e => exact absurd e (splitChars_ne_nil sep cs)
      · next p ps e => simp [e] at ih; simp [h2, ih]

theorem Split_headD (s : String) (sep : Char) :
    (strings.Split s sep).headD "" = String.mk (s.data.takeWhile (fun c => c != sep)) := by
  unfold strings.Split
  have h := splitChars_head sep s.data
  cases e : splitChars sep s.data with
  | nil => exact absurd e (splitChars_ne_nil sep s.data)
  | cons p ps => simp [e] at h; simp [h]

theorem Split_length (s : String) (sep : Char) :
    decide ((strings.Split s sep).length > 1) = decide (sep ∈ s.data) := by
  unfold strings.Split
  simpa using splitChars_length sep s.data

/-! ## `ImageWithoutDigest` -/

theorem ImageWithoutDigest_cut (before after : String) (h1 : '@' ∉ before.data)
    (h2 : before ≠ "") :
    ImageWithoutDigest (before ++ "@" ++ after) = (before, none) := by
  have hcut : cutChars '@' (before ++ "@" ++ after).data = (before.data, after.data, true) := by
    have : (before ++ "@" ++ after).data = before.data ++ '@' :: after.data := by
      simp [String.data_append]
    rw [this]
    exact cutChars_append '@' _ _ h1
  have hlen : before.data.length > 0 := by
    cases hb : before.data with
    | nil => exact absurd (String.ext hb) h2
    | cons c cs => simp
  have hlen2 : (String.mk before.data).length > 0 := hlen
  simp only [ImageWithoutDigest, strings.Cut, hcut]
  simp [hlen2]

theorem ImageWithoutDigest_no_at (s : String) (h : '@' ∉ s.data) :
    ImageWithoutDigest s = (s, none) := by
  simp [ImageWithoutDigest, strings.Cut, cutChars_not_mem '@' s.data h]

theorem ImageWithoutDigest_err_iff (s : String) :
    (ImageWithoutDigest s).2 ≠ none ↔ s.data.head? = some '@' := by
  cases hs : s.data with
  | nil => simp [ImageWithoutDigest, strings.Cut, hs, cutChars]
  | cons c cs =>
    by_cases hc : c = '@'
    · simp [ImageWithoutDigest, strings.Cut, hs, cutChars, hc]
    · have hlen : (String.mk (c :: (cutChars '@' cs).1)).length > 0 := by
        show (c :: (cutChars '@' cs).1).length > 0
        simp
      simp only [ImageWithoutDigest, strings.Cut, hs, cutChars, hc, if_false]
      simp only [hlen, if_true]
      split <;> simp [hc]

theorem ImageWithoutDigest_ok (s : String) (h : s.data.head? ≠ some '@') :
    (ImageWithoutDigest s).2 = none := by
  by_contra hne
  exact h ((ImageWithoutDigest_err_iff s).mp hne)

theorem ImageWithoutDigest_err_empty (s : String) (h : (ImageWithoutDigest s).2 ≠ none) :
    (ImageWithoutDigest s).1 = "" := by
  revert h
  unfold ImageWithoutDigest
  simp only
  split
  · split <;> simp
  · simp

theorem head_at_iff (s : String) :
    s.data.head? = some '@' ↔ ∃ rest : String, s = "@" ++ rest := by
  constructor
  · intro h
    cases hs : s.data with
    | nil => simp [hs] at h
    | cons c cs =>
      simp [hs] at h
      refine ⟨String.mk cs, String.ext ?_⟩
      simp [hs, h, String.data_append]
  · rintro ⟨rest, rfl⟩
    simp [String.data_append]

/-- C2 (as amended): a string `before ++ "@" ++ after` whose part `before`
in front of the FIRST `@` is non-empty is cut to exactly `before`; a string
with no `@` is returned unchanged.  Neither case is an error. -/
theorem ImageWithoutDigest_first_at (before after s : String)
    (h1 : '@' ∉ before.data) (h2 : before ≠ "") (h3 : '@' ∉ s.data) :
    ImageWithoutDigest (before ++ "@" ++ after) = (before, none) ∧
      ImageWithoutDigest s = (s, none) :=
  ⟨ImageWithoutDigest_cut before after h1 h2, ImageWithoutDigest_no_at s h3⟩

theorem ImageWithoutDigest_first_at_witness :
    ImageWithoutDigest ("nginx:1.0.1" ++ "@" ++ "sha256:aa@sha256:bb") = ("nginx:1.0.1", none) ∧
      ImageWithoutDigest "nginx:1.0.1" = ("nginx:1.0.1", none) :=
  ImageWithoutDigest_first_at "nginx:1.0.1" "sha256:aa@sha256:bb" "nginx:1.0.1"
    (by decide) (by decide) (by decide)

/-- C2 (as stated) fails: in `"nginx@sha256:aa@sha256:bb"` the part before the
last `@` is the non-empty `"nginx@sha256:aa"`, and `ImageWithoutDigest` returns
`"nginx"`, the part before the first `@`. -/
theorem ImageWithoutDigest_last_at_counterexample :
    ("nginx@sha256:aa@sha256:bb" : String) = "nginx@sha256:aa" ++ "@" ++ "sha256:bb" ∧
      '@' ∉ ("sha256:bb" : String).data ∧
      ("nginx@sha256:aa" : String) ≠ "" ∧
      ImageWithoutDigest "nginx@sha256:aa@sha256:bb" = ("nginx", none) ∧
      ImageWithoutDigest "nginx@sha256:aa@sha256:bb" ≠ ("nginx@sha256:aa", none) := by
  decide

/-- C3: `ImageWithoutDigest s` returns an error exactly when `s` begins with
`@`; the string returned with an error is empty; and an input without any `@`
never gives an error. -/
theorem ImageWithoutDigest_error_iff (s : String) :
    ((ImageWithoutDigest s).2 ≠ none ↔ ∃ rest : String, s = "@" ++ rest) ∧
      ((ImageWithoutDigest s).2 ≠ none → (ImageWithoutDigest s).1 = "") ∧
      ('@' ∉ s.data → (ImageWithoutDigest s).2 = none) := by
  refine ⟨?_, ImageWithoutDigest_err_empty s, ?_⟩
  · rw [ImageWithoutDigest_err_iff, head_at_iff]
  · intro h
    rw [ImageWithoutDigest_no_at s h]

theorem ImageWithoutDigest_error_iff_witness :
    (ImageWithoutDigest "@sha256:abc").2 ≠ none ∧ (ImageWithoutDigest "@sha256:abc").1 = "" ∧
      (ImageWithoutDigest "nginx:1.0.1").2 = none :=
  ⟨(ImageWithoutDigest_error_iff "@sha256:abc").1.mpr ⟨"sha256:abc", by decide⟩,
    (ImageWithoutDigest_error_iff "@sha256:abc").2.1 (by decide),
    (ImageWithoutDigest_error_iff "nginx:1.0.1").2.2 (by decide)⟩

/-! ## `ImageWithDigest` -/

theorem ImageWithoutDigest_eta (image : String) (h : image.data.head? ≠ some '@') :
    ImageWithoutDigest image = ((ImageWithoutDigest image).1, none) := by
  have := ImageWithoutDigest_ok image h
  exact Prod.ext rfl this

/-- C1: for an image that does not begin with `@`, with the skip-digest switch
off, when `CreateKeyChain` succeeds with `keyChain` and the digest query (issued
for the digest-stripped image with that keychain and the transport policy of
`WithTLSSkipVerify`) succeeds with `d`, `ImageWithDigest` returns
`ImageWithoutDigest(image) + "@" + d` and no error. -/
theorem ImageWithDigest_success {Client κ : Type} (w : World Client κ) (g : Globals)
    (kc : Client) (image : String) (k8sOpts : Option Options) (keyChain : MultiKeychain κ)
    (d : String)
    (hat : image.data.head? ≠ some '@')
    (hskip : g.SkipImageDigest ≠ "true")
    (hkc : (CreateKeyChain w g kc k8sOpts).1 = .ok keyChain)
    (hd : w.craneDigest (ImageWithoutDigest image).1 keyChain
      (WithTLSSkipVerify w.PublicSuffix g (ImageWithoutDigest image).1).1 = .ok d) :
    (ImageWithDigest w g kc image k8sOpts).1 = ((ImageWithoutDigest image).1 ++ "@" ++ d, none) := by
  have h0 := ImageWithoutDigest_eta image hat
  generalize (ImageWithoutDigest image).1 = stripped at h0 hd
  have hck : CreateKeyChain w g kc k8sOpts = (.ok keyChain, (CreateKeyChain w g kc k8sOpts).2) :=
    Prod.ext hkc rfl
  generalize (CreateKeyChain w g kc k8sOpts).2 = calls at hck
  simp only [ImageWithDigest, h0, hskip, if_false, hck, hd]

/-- C10: with the skip-digest switch on (`SkipImageDigest == "true"`), for an
image that does not begin with `@`, `ImageWithDigest` returns exactly
`ImageWithoutDigest(image)` and no error, leaves the package state as it was and
makes no external call (no keychain is built, no digest query is issued),
whatever the external collaborators `w` would have answered. -/
theorem ImageWithDigest_skip {Client κ : Type} (w : World Client κ) (g : Globals)
    (kc : Client) (image : String) (k8sOpts : Option Options)
    (hat : image.data.head? ≠ some '@')
    (hskip : g.SkipImageDigest = "true") :
    ImageWithDigest w g kc image k8sOpts = (((ImageWithoutDigest image).1, none), g, []) := by
  have h0 := ImageWithoutDigest_eta image hat
  generalize (ImageWithoutDigest image).1 = stripped at h0
  simp only [ImageWithDigest, h0, hskip, if_true]

/-! ## `probablyInsecureRegistry` -/

theorem onceDo_set (g : Globals) : (onceDo g).insecureRegistrySet = g.exceptions := by
  unfold onceDo Globals.exceptions
  cases g.once <;> simp

theorem exceptions_onceDo (g : Globals) : (onceDo g).exceptions = g.exceptions := by
  unfold onceDo Globals.exceptions
  cases h : g.once <;> simp [h]

theorem probablyInsecureRegistry_eq (psl : String → String × Bool) (g : Globals) (s : String) :
    (probablyInsecureRegistry psl g s).1 =
      (decide ('/' ∈ s.data) && decide ('.' ∈ (firstSegment s).data) &&
        (decide (firstSegment s ∈ g.exceptions) || !(psl (firstSegment s)).2)) := by
  have hhead : (strings.Split s '/').headD "" = firstSegment s := Split_headD s '/'
  have hlen := Split_length s '/'
  simp only [probablyInsecureRegistry, hhead, strings.ContainsRune, onceDo_set]
  rw [hlen]
  by_cases h1 : '/' ∈ s.data <;> by_cases h2 : '.' ∈ (firstSegment s).data <;>
    by_cases h3 : firstSegment s ∈ g.exceptions <;>
    cases h4 : (psl (firstSegment s)).2 <;> simp [h1, h2, h3, h4]

theorem firstSegment_append (h rest : String) (hs : '/' ∉ h.data) :
    firstSegment (h ++ "/" ++ rest) = h := by
  apply String.ext
  have : (h ++ "/" ++ rest).data = h.data ++ '/' :: rest.data := by simp [String.data_append]
  simp only [firstSegment, this]
  rw [List.takeWhile_append_of_pos]
  · simp
  · intro c hc
    have : c ≠ '/' := fun e => hs (e ▸ hc)
    simpa using this

/-- C5 (as amended): `probablyInsecureRegistry` returns `false` when the input
has no `/` or its first `/`-delimited segment has no `.`; otherwise it returns
`true` exactly when that segment is in the exception set or
`publicsuffix.PublicSuffix` reports its suffix as not ICANN managed. -/
theorem probablyInsecureRegistry_spec (psl : String → String × Bool) (g : Globals)
    (s : String) :
    (('/' ∉ s.data ∨ '.' ∉ (firstSegment s).data) →
        (probablyInsecureRegistry psl g s).1 = false) ∧
      ('/' ∈ s.data → '.' ∈ (firstSegment s).data →
        ((probablyInsecureRegistry psl g s).1 = true ↔
          (firstSegment s ∈ g.exceptions ∨ (psl (firstSegment s)).2 = false))) := by
  rw [probablyInsecureRegistry_eq]
  constructor
  · rintro (h | h) <;> simp [h]
  · intro h1 h2
    simp [h1, h2]

/-- C5 (as stated) fails: the first segment of `"registry.local"` contains a
`.` and its public suffix is not ICANN managed, yet the classifier returns
`false`, because the input has no `/`. -/
theorem probablyInsecureRegistry_no_slash_counterexample :
    '.' ∈ (firstSegment "registry.local").data ∧
      (pslNone (firstSegment "registry.local")).2 = false ∧
      (probablyInsecureRegistry pslNone gUnset "registry.local").1 = false := by
  decide

theorem probablyInsecureRegistry_spec_witness :
    (probablyInsecureRegistry pslNone gUnset "nginx").1 = false ∧
      ((probablyInsecureRegistry pslNone gUnset "registry.local/app:1").1 = true ↔
        (firstSegment "registry.local/app:1" ∈ gUnset.exceptions ∨
          (pslNone (firstSegment "registry.local/app:1")).2 = false)) :=
  ⟨(probablyInsecureRegistry_spec pslNone gUnset "nginx").1 (Or.inl (by decide)),
    (probablyInsecureRegistry_spec pslNone gUnset "registry.local/app:1").2
      (by decide) (by decide)⟩

/-- C6 (as amended): for a host `h` that contains a `.` and no `/`, the
classifier applied to an image reference `h/rest` returns `true` whenever `h`
is in the exception set (in particular when the set is `{h}`), whatever
`publicsuffix.PublicSuffix` says about `h`. -/
theorem probablyInsecureRegistry_exception (psl : String → String × Bool) (g : Globals)
    (h rest : String) (hslash : '/' ∉ h.data) (hdot : '.' ∈ h.data)
    (hexc : h ∈ g.exceptions) :
    (probablyInsecureRegistry psl g (h ++ "/" ++ rest)).1 = true := by
  rw [probablyInsecureRegistry_eq, firstSegment_append h rest hslash]
  have : '/' ∈ (h ++ "/" ++ rest).data := by simp [String.data_append]
  simp [this, hdot, hexc]

theorem probablyInsecureRegistry_exception_witness :
    (probablyInsecureRegistry pslAll (Globals.initial ["gcr.io"] "" ⟨"default", "", []⟩)
      ("gcr.io" ++ "/" ++ "google-containers/echoserver:1.10")).1 = true :=
  probablyInsecureRegistry_exception pslAll _ "gcr.io" "google-containers/echoserver:1.10"
    (by decide) (by decide) (by decide)

/-- C6 (as stated) fails: applied to the host `"registry.local"` itself with the
exception set `{"registry.local"}`, the classifier returns `false`, both when
the public suffix is reported ICANN managed and when it is not. -/
theorem probablyInsecureRegistry_host_counterexample :
    (Globals.initial ["registry.local"] "" ⟨"default", "", []⟩).exceptions = ["registry.local"] ∧
      (probablyInsecureRegistry pslAll
        (Globals.initial ["registry.local"] "" ⟨"default", "", []⟩) "registry.local").1 = false ∧
      (probablyInsecureRegistry pslNone
        (Globals.initial ["registry.local"] "" ⟨"default", "", []⟩) "registry.local").1 = false := by
  decide

theorem ImageWithDigest_success_witness :
    (ImageWithDigest wOk gUnset () "nginx:1.0.1@sha256:00" none).1 =
      ("nginx:1.0.1@sha256:abc", none) :=
  ImageWithDigest_success wOk gUnset () "nginx:1.0.1@sha256:00" none
    ⟨fallbackKeychains String⟩ "sha256:abc" (by decide) (by decide) rfl rfl

theorem ImageWithDigest_skip_witness :
    ImageWithDigest wFail gSkip () "nginx:1.0.1@sha256:00" (some ⟨"default", "sa", []⟩) =
      (("nginx:1.0.1", none), gSkip, []) :=
  ImageWithDigest_skip wFail gSkip () "nginx:1.0.1@sha256:00" (some ⟨"default", "sa", []⟩)
    (by decide) (by decide)

/-! ## `CreateKeyChain` -/

theorem isOptionsSet_false (g : Globals) (hsa : g.optsFromFlags.ServiceAccountName = "")
    (hps : g.optsFromFlags.ImagePullSecrets = []) : isOptionsSet g = false := by
  simp [isOptionsSet, hsa, hps]

theorem CreateKeyChain_nil_unset {Client κ : Type} (w : World Client κ) (g : Globals)
    (client : Client) (h : isOptionsSet g = false) :
    CreateKeyChain w g client none =
      (.ok ⟨fallbackKeychains κ⟩, [.NewMultiKeychain (fallbackKeychains κ)]) := by
  simp [CreateKeyChain, h]

theorem CreateKeyChain_some_unset {Client κ : Type} (w : World Client κ) (g : Globals)
    (client : Client) (opt : Options) (h : isOptionsSet g = false) :
    CreateKeyChain w g client (some opt) =
      match w.k8schainNew client opt with
      | .error err => (.error err, [.k8schainNew client opt])
      | .ok kChain =>
        (.ok ⟨[.cluster kChain, .DefaultKeychain]⟩,
          [.k8schainNew client opt, .NewMultiKeychain [.cluster kChain, .DefaultKeychain]]) := by
  simp only [CreateKeyChain, Option.isSome_some, Bool.true_or, if_true]
  cases w.k8schainNew client opt with
  | error err => rfl
  | ok kChain => simp [CreateKeyChain.fromFlags, CreateKeyChain.finish, h]

/-- C7: when the explicit options are non-nil or `isOptionsSet()` holds, and the
`k8schain.New` calls succeed (with `k1` for the explicit options, `k2` for the
flag-derived ones), `CreateKeyChain` returns without error the chain made of the
explicit-options resolver (present iff the explicit options are non-nil), then
the flag-derived resolver (present iff `isOptionsSet()`), then
`authn.DefaultKeychain`.  The chain has 2 or 3 sources and none of them is the
Google, GitHub, Amazon or Azure helper. -/
theorem CreateKeyChain_cluster {Client κ : Type} (w : World Client κ) (g : Globals)
    (client : Client) (k8sOpts : Option Options) (k1 k2 : κ)
    (hreq : k8sOpts ≠ none ∨ isOptionsSet g = true)
    (h1 : ∀ opt, k8sOpts = some opt → w.k8schainNew client opt = .ok k1)
    (h2 : isOptionsSet g = true → w.k8schainNew client g.optsFromFlags = .ok k2) :
    ∃ ks : List (Keychain κ),
      (CreateKeyChain w g client k8sOpts).1 = .ok ⟨ks⟩ ∧
      ks = (if k8sOpts.isSome then [.cluster k1] else []) ++
            (if isOptionsSet g then [.cluster k2] else []) ++ [.DefaultKeychain] ∧
      (ks.length = 2 ∨ ks.length = 3) ∧
      .googleKeychain ∉ ks ∧ .githubKeychain ∉ ks ∧ .amazonKeychain ∉ ks ∧
      .azureKeychain ∉ ks := by
  cases k8sOpts with
  | none =>
    have hset : isOptionsSet g = true := by
      rcases hreq with h | h
      · exact absurd rfl h
      · exact h
    refine ⟨[.cluster k2, .DefaultKeychain], ?_, ?_, ?_⟩
    · simp [CreateKeyChain, CreateKeyChain.fromFlags, CreateKeyChain.finish, hset, h2 hset]
    · simp [hset]
    · simp
  | some opt =>
    have e1 := h1 opt rfl
    cases hset : isOptionsSet g with
    | true =>
      refine ⟨[.cluster k1, .cluster k2, .DefaultKeychain], ?_, ?_, ?_⟩
      · simp [CreateKeyChain, CreateKeyChain.fromFlags, CreateKeyChain.finish, hset, e1,
          h2 hset]
      · simp
      · simp
    | false =>
      refine ⟨[.cluster k1, .DefaultKeychain], ?_, ?_, ?_⟩
      · simp [CreateKeyChain, CreateKeyChain.fromFlags, CreateKeyChain.finish, hset, e1]
      · simp
      · simp

theorem CreateKeyChain_cluster_witness :
    ∃ ks : List (Keychain String),
      (CreateKeyChain wOk gFlags () (some ⟨"prod", "builder", []⟩)).1 = .ok ⟨ks⟩ ∧
      ks = (if (some (⟨"prod", "builder", []⟩ : Options)).isSome
              then [.cluster "prod/builder"] else []) ++
            (if isOptionsSet gFlags then [.cluster "default/"] else []) ++ [.DefaultKeychain] ∧
      (ks.length = 2 ∨ ks.length = 3) ∧
      .googleKeychain ∉ ks ∧ .githubKeychain ∉ ks ∧ .amazonKeychain ∉ ks ∧
      .azureKeychain ∉ ks :=
  CreateKeyChain_cluster wOk gFlags () (some ⟨"prod", "builder", []⟩) "prod/builder" "default/"
    (Or.inl (by simp)) (fun opt h => by cases h; rfl) (fun _ => rfl)

/-- C8 (as amended): with nil explicit options and flag-derived options that
carry neither a service account name nor a pull secret, `CreateKeyChain` returns
without error a chain of exactly five sources in this order: the Google helper
first, then `authn.DefaultKeychain`, then the GitHub helper, the Amazon ECR
helper and the Azure ACR helper. -/
theorem CreateKeyChain_fallback {Client κ : Type} (w : World Client κ) (g : Globals)
    (client : Client) (hsa : g.optsFromFlags.ServiceAccountName = "")
    (hps : g.optsFromFlags.ImagePullSecrets = []) :
    (CreateKeyChain w g client none).1 =
      .ok ⟨[.googleKeychain, .DefaultKeychain, .githubKeychain, .amazonKeychain,
        .azureKeychain]⟩ := by
  rw [CreateKeyChain_nil_unset w g client (isOptionsSet_false g hsa hps)]
  rfl

theorem CreateKeyChain_fallback_witness :
    (CreateKeyChain wFail gUnset () none).1 =
      .ok ⟨[.googleKeychain, .DefaultKeychain, .githubKeychain, .amazonKeychain,
        .azureKeychain]⟩ :=
  CreateKeyChain_fallback wFail gUnset () rfl rfl

/-- C8 (as stated) fails: the chain returned for nil explicit options and unset
flag options starts with the Google helper, not with the default local
keychain. -/
theorem CreateKeyChain_order_counterexample :
    gUnset.optsFromFlags.ServiceAccountName = "" ∧
      gUnset.optsFromFlags.ImagePullSecrets = [] ∧
      (CreateKeyChain wOk gUnset () none).1 =
        .ok ⟨[.googleKeychain, .DefaultKeychain, .githubKeychain, .amazonKeychain,
          .azureKeychain]⟩ ∧
      (CreateKeyChain wOk gUnset () none).1 ≠
        .ok ⟨[.DefaultKeychain, .googleKeychain, .githubKeychain, .amazonKeychain,
          .azureKeychain]⟩ := by
  refine ⟨rfl, rfl, rfl, ?_⟩
  intro h
  have h' : (⟨fallbackKeychains String⟩ : MultiKeychain String) =
      ⟨[.DefaultKeychain, .googleKeychain, .githubKeychain, .amazonKeychain,
        .azureKeychain]⟩ := Except.ok.inj h
  exact absurd h' (by decide)

/-- C9 (as amended): with flag-derived options that carry neither a service
account name nor a pull secret, `CreateKeyChain` returns the fixed fallback-only
chain exactly when the explicit options are nil, and it makes no `k8schain.New`
call exactly when they are nil.  For a non-nil explicit options value, whatever
its fields (empty ones included), the first thing it does is call `k8schain.New`
on that value. -/
theorem CreateKeyChain_fallback_iff_nil {Client κ : Type} (w : World Client κ) (g : Globals)
    (client : Client) (k8sOpts : Option Options)
    (hsa : g.optsFromFlags.ServiceAccountName = "")
    (hps : g.optsFromFlags.ImagePullSecrets = []) :
    ((CreateKeyChain w g client k8sOpts).1 = .ok ⟨fallbackKeychains κ⟩ ↔ k8sOpts = none) ∧
      ((∀ opt, Call.k8schainNew client opt ∉ (CreateKeyChain w g client k8sOpts).2) ↔
        k8sOpts = none) ∧
      (∀ opt, k8sOpts = some opt →
        (CreateKeyChain w g client k8sOpts).2.head? = some (.k8schainNew client opt)) := by
  have hset := isOptionsSet_false g hsa hps
  cases k8sOpts with
  | none =>
    rw [CreateKeyChain_nil_unset w g client hset]
    simp
  | some opt =>
    rw [CreateKeyChain_some_unset w g client opt hset]
    cases w.k8schainNew client opt with
    | error err =>
      refine ⟨by simp, ?_, by simp⟩
      simp only [iff_false, not_forall, not_not, reduceCtorEq]
      exact ⟨opt, by simp⟩
    | ok kChain =>
      refine ⟨by simp [fallbackKeychains], ?_, by simp⟩
      simp only [iff_false, not_forall, not_not, reduceCtorEq]
      exact ⟨opt, by simp⟩

theorem CreateKeyChain_fallback_iff_nil_witness :
    ((CreateKeyChain wOk gUnset () (some ⟨"", "", []⟩)).1 = .ok ⟨fallbackKeychains String⟩ ↔
        (some (⟨"", "", []⟩ : Options)) = none) ∧
      ((∀ opt, Call.k8schainNew () opt ∉ (CreateKeyChain wOk gUnset () (some ⟨"", "", []⟩)).2) ↔
        (some (⟨"", "", []⟩ : Options)) = none) ∧
      (∀ opt, some (⟨"", "", []⟩ : Options) = some opt →
        (CreateKeyChain wOk gUnset () (some ⟨"", "", []⟩)).2.head? =
          some (.k8schainNew () opt)) :=
  CreateKeyChain_fallback_iff_nil wOk gUnset () (some ⟨"", "", []⟩) rfl rfl

/-- C9 (as stated) fails: for the non-nil explicit options value with empty
namespace, empty service account name and no pull secrets, and unset flag
options, `CreateKeyChain` calls `k8schain.New` and returns the two-source chain
of that resolver and the default keychain, not the fallback-only chain it
returns for nil. -/
theorem CreateKeyChain_empty_options_counterexample :
    gUnset.optsFromFlags.ServiceAccountName = "" ∧
      gUnset.optsFromFlags.ImagePullSecrets = [] ∧
      CreateKeyChain wOk gUnset () (some ⟨"", "", []⟩) =
        (.ok ⟨[.cluster "/", .DefaultKeychain]⟩,
          [.k8schainNew () ⟨"", "", []⟩,
            .NewMultiKeychain [.cluster "/", .DefaultKeychain]]) ∧
      (CreateKeyChain wOk gUnset () none).1 = .ok ⟨fallbackKeychains String⟩ ∧
      (CreateKeyChain wOk gUnset () (some ⟨"", "", []⟩)).1 ≠
        (CreateKeyChain wOk gUnset () none).1 := by
  refine ⟨rfl, rfl, rfl, rfl, ?_⟩
  intro h
  have h' : (⟨[.cluster "/", .DefaultKeychain]⟩ : MultiKeychain String) =
      ⟨fallbackKeychains String⟩ := Except.ok.inj h
  exact absurd h' (by decide)

end Authn

/-! ## `ParseReference` -/

namespace Name
open Authn

theorem ParseReference_composeName (s : String) (img : Image)
    (h : ParseReference s = .ok img) :
    img.Name = composeName img.Registry img.Repository img.Tag img.Digest := by
  unfold ParseReference at h
  simp only at h
  repeat' split at h
  all_goals first
    | (cases h; done)
    | (injection h with h; subst h; rfl)


theorem cutChars_append_right (sep : Char) (l m : List Char) (h : sep ∉ m) :
    cutChars sep (l ++ m) =
      if (cutChars sep l).2.2 then ((cutChars sep l).1, (cutChars sep l).2.1 ++ m, true)
      else (l ++ m, [], false) := by
  induction l with
  | nil => simp [cutChars, cutChars_not_mem sep m h]
  | cons c cs ih =>
    by_cases hc : c = sep
    · simp [cutChars, hc]
    · rw [List.cons_append]
      simp only [cutChars, hc, if_false]
      rw [ih]
      cases (cutChars sep cs).2.2 <;> simp

theorem cutChars_eq (sep : Char) (l : List Char) (h : (cutChars sep l).2.2 = true) :
    l = (cutChars sep l).1 ++ sep :: (cutChars sep l).2.1 := by
  induction l with
  | nil => simp [cutChars] at h
  | cons c cs ih =>
    by_cases hc : c = sep
    · simp [cutChars, hc]
    · simp only [cutChars, hc, if_false] at h ⊢
      simpa using ih h

theorem cutLastChars_append (sep : Char) (before after : List Char) (h : sep ∉ after) :
    cutLastChars sep (before ++ sep :: after) = (before, after, true) := by
  have hr : (before ++ sep :: after).reverse = after.reverse ++ sep :: before.reverse := by
    simp
  have h' : sep ∉ after.reverse := by simpa using h
  simp [cutLastChars, hr, cutChars_append sep _ _ h']

theorem cutLastChars_not_mem (sep : Char) (l : List Char) (h : sep ∉ l) :
    cutLastChars sep l = (l, [], false) := by
  have h' : sep ∉ l.reverse := by simpa using h
  simp [cutLastChars, cutChars_not_mem sep _ h']

theorem validDigest_ne_nil (d : List Char) (h : validDigest d = true) : d ≠ [] := by
  intro e
  subst e
  simp [validDigest, cutChars] at h

theorem validTag_not_mem (t : List Char) (h : validTag t = true) (c : Char)
    (hc : (c.isAlphanum || c = '.' || c = '-' || c = '_') = false) : c ∉ t := by
  intro hmem
  simp only [validTag, Bool.and_eq_true, List.all_eq_true] at h
  have := h.1 c hmem
  rw [hc] at this
  exact absurd this (by decide)

theorem validDigest_no_at (d : List Char) (h : validDigest d = true) : '@' ∉ d := by
  simp only [validDigest, Bool.and_eq_true, List.all_eq_true] at h
  obtain ⟨⟨⟨⟨hf, -⟩, halg⟩, -⟩, hhex⟩ := h
  intro hmem
  rw [cutChars_eq ':' d hf] at hmem
  rcases List.mem_append.mp hmem with hm | hm
  · exact absurd (halg _ hm) (by decide)
  · rcases List.mem_cons.mp hm with hm | hm
    · exact absurd hm (by decide)
    · exact absurd (hhex _ hm) (by decide)

theorem registryOf_append_tag (base t : List Char) (h : '/' ∉ t) :
    registryOf (base ++ ':' :: t) = registryOf base := by
  have hm : '/' ∉ ':' :: t := by simp [h]
  simp only [registryOf, cutChars_append_right '/' base _ hm]
  by_cases hf : (cutChars '/' base).2.2 = true <;>
    by_cases hr : isRegistryHost (cutChars '/' base).1 = true <;> simp [hf, hr]

theorem pathOf_append_tag (base t : List Char) (h : '/' ∉ t) :
    pathOf (base ++ ':' :: t) = pathOf base ++ ':' :: t := by
  have hm : '/' ∉ ':' :: t := by simp [h]
  simp only [pathOf, cutChars_append_right '/' base _ hm]
  by_cases hf : (cutChars '/' base).2.2 = true <;>
    by_cases hr : isRegistryHost (cutChars '/' base).1 = true <;> simp [hf, hr]

/-- `ParseReference` is the digest split followed by `parseRest`. -/
theorem ParseReference_eq (s : String) :
    ParseReference s =
      if (cutLastChars '@' s.data).2.2 && (cutLastChars '@' s.data).1.isEmpty then
        .error ("reference has digest but no repository: " ++ s)
      else if (cutLastChars '@' s.data).2.2 && !validDigest (cutLastChars '@' s.data).2.1 then
        .error ("invalid digest: " ++ String.mk (cutLastChars '@' s.data).2.1)
      else parseRest s (cutLastChars '@' s.data).1 (cutLastChars '@' s.data).2.1 := rfl

theorem ParseReference_digest_eq (s : String) (rest dg : List Char)
    (hs : s.data = rest ++ '@' :: dg) (h : '@' ∉ dg) :
    ParseReference s =
      if rest.isEmpty then .error ("reference has digest but no repository: " ++ s)
      else if !validDigest dg then .error ("invalid digest: " ++ String.mk dg)
      else parseRest s rest dg := by
  rw [ParseReference_eq, hs, cutLastChars_append '@' rest dg h]
  simp only [Bool.true_and]

theorem ParseReference_no_digest_eq (s : String) (h : '@' ∉ s.data) :
    ParseReference s = parseRest s s.data [] := by
  rw [ParseReference_eq, cutLastChars_not_mem '@' s.data h]
  simp

theorem parseRest_nil (s : String) (dg : List Char) (img : Image) :
    parseRest s [] dg ≠ .ok img := by
  simp only [parseRest, pathOf, cutChars, cutLastChars, List.reverse_nil, Bool.false_and,
    Bool.false_eq_true, if_false, List.isEmpty_nil, if_true]
  split <;> simp

theorem parseRest_tag (s : String) (base t dg : List Char) (h1 : ':' ∉ t) (h2 : '/' ∉ t) :
    parseRest s (base ++ ':' :: t) dg =
      if !validTag t then .error ("invalid tag: " ++ String.mk t)
      else if (pathOf base).isEmpty then .error ("empty repository: " ++ s)
      else
        .ok { Original := s,
              Name := composeName (registryOf base)
                (repositoryOf (registryOf base) (pathOf base)) (String.mk t) (String.mk dg),
              Registry := registryOf base,
              Repository := repositoryOf (registryOf base) (pathOf base),
              Tag := String.mk t, Digest := String.mk dg } := by
  simp only [parseRest, pathOf_append_tag base t h2, registryOf_append_tag base t h2,
    cutLastChars_append ':' _ t h1]

theorem parseRest_digest (s s' : String) (rest dg dg' : List Char) (img : Image)
    (h : parseRest s rest dg = .ok img) :
    parseRest s' rest dg' =
      .ok { img with Original := s', Digest := String.mk dg',
                     Name := composeName img.Registry img.Repository img.Tag (String.mk dg') } := by
  unfold parseRest at h ⊢
  simp only at h ⊢
  split at h
  · cases h
  · next hv =>
    split at h
    · cases h
    · next he =>
      injection h with h
      subst h
      simp [hv, he]

theorem composeName_digest (registry repository tag : String) (d : List Char) (h : d ≠ []) :
    composeName registry repository tag (String.mk d) =
      registry ++ "/" ++ repository ++ "@" ++ String.mk d := by
  have : String.mk d ≠ "" := fun e => h (congrArg String.data e)
  simp [composeName, this]

theorem data_tag_digest (base tag d : String) :
    (base ++ ":" ++ tag ++ "@" ++ d).data = (base.data ++ ':' :: tag.data) ++ '@' :: d.data := by
  simp [String.data_append]

/-- A successful parse of `base:tag@d` reports the tag `tag`, the digest `d` and
the digest form of `Name`. -/
theorem ParseReference_tag_digest (base tag d : String) (img : Image)
    (h1 : ':' ∉ tag.data) (h2 : '/' ∉ tag.data) (h3 : '@' ∉ d.data)
    (h : ParseReference (base ++ ":" ++ tag ++ "@" ++ d) = .ok img) :
    img.Tag = tag ∧ img.Digest = d ∧
      img.Name = img.Registry ++ "/" ++ img.Repository ++ "@" ++ d := by
  rw [ParseReference_digest_eq _ _ _ (data_tag_digest base tag d) h3] at h
  split at h
  · cases h
  · split at h
    · cases h
    · next hv =>
      rw [parseRest_tag _ _ _ _ h1 h2] at h
      split at h
      · cases h
      · split at h
        · cases h
        · injection h with h
          subst h
          have hd : d.data ≠ [] := validDigest_ne_nil d.data (by simpa using hv)
          exact ⟨rfl, rfl, composeName_digest _ _ _ _ hd⟩

/-- A reference that parses still parses with a digest `d` appended, to the same
registry, repository and tag; `Name` becomes the digest form. -/
theorem ParseReference_append_digest (r d : String) (img : Image)
    (h1 : '@' ∉ r.data) (h2 : validDigest d.data = true)
    (h : ParseReference r = .ok img) :
    ParseReference (r ++ "@" ++ d) =
      .ok { img with Original := r ++ "@" ++ d, Digest := d,
                     Name := img.Registry ++ "/" ++ img.Repository ++ "@" ++ d } := by
  rw [ParseReference_no_digest_eq r h1] at h
  have hs : (r ++ "@" ++ d).data = r.data ++ '@' :: d.data := by simp [String.data_append]
  have hne : r.data ≠ [] := by
    intro e
    rw [e] at h
    exact parseRest_nil r [] img h
  rw [ParseReference_digest_eq _ _ _ hs (validDigest_no_at d.data h2)]
  have he : r.data.isEmpty = false := by
    cases hr : r.data with
    | nil => exact absurd hr hne
    | cons c cs => rfl
  simp only [he, h2, Bool.not_true, if_false, Bool.false_eq_true]
  rw [parseRest_digest r (r ++ "@" ++ d) r.data [] d.data img h,
    composeName_digest _ _ _ _ (validDigest_ne_nil d.data h2)]

/-- A reference `base:tag@d` with a valid tag, a valid digest and a non-empty
repository path parses, and to what. -/
theorem ParseReference_tag_digest_ok (base tag d : String)
    (ht : validTag tag.data = true) (hd : validDigest d.data = true)
    (hp : pathOf base.data ≠ []) :
    ParseReference (base ++ ":" ++ tag ++ "@" ++ d) =
      .ok { Original := base ++ ":" ++ tag ++ "@" ++ d,
            Name := registryOf base.data ++ "/" ++
              repositoryOf (registryOf base.data) (pathOf base.data) ++ "@" ++ d,
            Registry := registryOf base.data,
            Repository := repositoryOf (registryOf base.data) (pathOf base.data),
            Tag := tag, Digest := d } := by
  have h1 : ':' ∉ tag.data := validTag_not_mem _ ht ':' (by decide)
  have h2 : '/' ∉ tag.data := validTag_not_mem _ ht '/' (by decide)
  rw [ParseReference_digest_eq _ _ _ (data_tag_digest base tag d) (validDigest_no_at _ hd),
    parseRest_tag _ _ _ _ h1 h2]
  have hpe : (pathOf base.data).isEmpty = false := by
    cases hr : pathOf base.data with
    | nil => exact absurd hr hp
    | cons c cs => rfl
  have he : (base.data ++ ':' :: tag.data).isEmpty = false := by
    cases base.data <;> rfl
  simp only [he, hd, ht, hpe, Bool.not_true, if_false, Bool.false_eq_true]
  rw [composeName_digest _ _ _ _ (validDigest_ne_nil d.data hd)]

theorem registryOf_host (h p : List Char) (hh : isRegistryHost h = true) (hs : '/' ∉ h) :
    registryOf (h ++ '/' :: p) = normalizeRegistry h ∧ pathOf (h ++ '/' :: p) = p := by
  simp [registryOf, pathOf, cutChars_append '/' h p hs, hh]

theorem registryOf_bare (p : List Char) (hs : '/' ∉ p) :
    registryOf p = DefaultRegistry ∧ pathOf p = p := by
  simp [registryOf, pathOf, cutChars_not_mem '/' p hs]

/-- A reference `h/p:tag@d` with a registry host `h`, a non-empty repository
path `p`, a valid tag and a valid digest parses, and to what. -/
theorem ParseReference_host_tag_digest (h p tag d : String)
    (hh : isRegistryHost h.data = true) (hs : '/' ∉ h.data) (hp : p ≠ "")
    (ht : validTag tag.data = true) (hd : validDigest d.data = true) :
    ParseReference (h ++ "/" ++ p ++ ":" ++ tag ++ "@" ++ d) =
      .ok { Original := h ++ "/" ++ p ++ ":" ++ tag ++ "@" ++ d,
            Name := normalizeRegistry h.data ++ "/" ++
              repositoryOf (normalizeRegistry h.data) p.data ++ "@" ++ d,
            Registry := normalizeRegistry h.data,
            Repository := repositoryOf (normalizeRegistry h.data) p.data,
            Tag := tag, Digest := d } := by
  have hb : (h ++ "/" ++ p).data = h.data ++ '/' :: p.data := by simp [String.data_append]
  obtain ⟨hr, hpath⟩ := registryOf_host h.data p.data hh hs
  have hne : pathOf (h ++ "/" ++ p).data ≠ [] := by
    rw [hb, hpath]
    exact fun e => hp (String.ext e)
  have := ParseReference_tag_digest_ok (h ++ "/" ++ p) tag d ht hd hne
  rw [hb, hr, hpath] at this
  exact this

/-- A reference `p:tag@d` whose repository path `p` is a bare name (no `/`),
with a valid tag and a valid digest, parses to the default registry and the
repository `library/p`. -/
theorem ParseReference_bare_tag_digest (p tag d : String)
    (hs : '/' ∉ p.data) (hp : p ≠ "")
    (ht : validTag tag.data = true) (hd : validDigest d.data = true) :
    ParseReference (p ++ ":" ++ tag ++ "@" ++ d) =
      .ok { Original := p ++ ":" ++ tag ++ "@" ++ d,
            Name := DefaultRegistry ++ "/" ++ ("library/" ++ p) ++ "@" ++ d,
            Registry := DefaultRegistry, Repository := "library/" ++ p,
            Tag := tag, Digest := d } := by
  obtain ⟨hr, hpath⟩ := registryOf_bare p.data hs
  have hne : pathOf p.data ≠ [] := by
    rw [hpath]
    exact fun e => hp (String.ext e)
  have := ParseReference_tag_digest_ok p tag d ht hd hne
  rw [hr, hpath] at this
  have hrepo : repositoryOf DefaultRegistry p.data = "library/" ++ p := by
    unfold repositoryOf
    rw [if_pos (by simp [hs])]
  rw [hrepo] at this
  exact this

/-- The model of `ParseReference` returns what `TestParseReference` of
`name/lib_test.go` expects, on each of its twelve fixtures. -/
theorem ParseReference_fixtures :
    ParseReference "docker.io/library/nginx@sha256:d586384381a0e6834cef73d432b1486f0b86334cb92e54256def62dd403f82ab" =
      .ok { Original := "docker.io/library/nginx@sha256:d586384381a0e6834cef73d432b1486f0b86334cb92e54256def62dd403f82ab",
            Name := "index.docker.io/library/nginx@sha256:d586384381a0e6834cef73d432b1486f0b86334cb92e54256def62dd403f82ab",
            Registry := "index.docker.io", Repository := "library/nginx", Tag := "",
            Digest := "sha256:d586384381a0e6834cef73d432b1486f0b86334cb92e54256def62dd403f82ab" } ∧
    ParseReference "docker.io/library/mariadb@sha256:8040983db146f729749081c6b216a19d52e0973134e2e34c0b4fd87f48bc15b0" =
      .ok { Original := "docker.io/library/mariadb@sha256:8040983db146f729749081c6b216a19d52e0973134e2e34c0b4fd87f48bc15b0",
            Name := "index.docker.io/library/mariadb@sha256:8040983db146f729749081c6b216a19d52e0973134e2e34c0b4fd87f48bc15b0",
            Registry := "index.docker.io", Repository := "library/mariadb", Tag := "",
            Digest := "sha256:8040983db146f729749081c6b216a19d52e0973134e2e34c0b4fd87f48bc15b0" } ∧
    ParseReference "docker.io/library/mariadb:10.8.2@sha256:8040983db146f729749081c6b216a19d52e0973134e2e34c0b4fd87f48bc15b0" =
      .ok { Original := "docker.io/library/mariadb:10.8.2@sha256:8040983db146f729749081c6b216a19d52e0973134e2e34c0b4fd87f48bc15b0",
            Name := "index.docker.io/library/mariadb@sha256:8040983db146f729749081c6b216a19d52e0973134e2e34c0b4fd87f48bc15b0",
            Registry := "index.docker.io", Repository := "library/mariadb", Tag := "10.8.2",
            Digest := "sha256:8040983db146f729749081c6b216a19d52e0973134e2e34c0b4fd87f48bc15b0" } ∧
    ParseReference "docker.io/prom/mysqld-exporter@sha256:a8af600c3ef1c8df179b736b94d04dc5ec209be88407a4c1c1bd0fc6394f56e8" =
      .ok { Original := "docker.io/prom/mysqld-exporter@sha256:a8af600c3ef1c8df179b736b94d04dc5ec209be88407a4c1c1bd0fc6394f56e8",
            Name := "index.docker.io/prom/mysqld-exporter@sha256:a8af600c3ef1c8df179b736b94d04dc5ec209be88407a4c1c1bd0fc6394f56e8",
            Registry := "index.docker.io", Repository := "prom/mysqld-exporter", Tag := "",
            Digest := "sha256:a8af600c3ef1c8df179b736b94d04dc5ec209be88407a4c1c1bd0fc6394f56e8" } ∧
    ParseReference "gcr.io/google-containers/echoserver:1.10@sha256:cb5c1bddd1b5665e1867a7fa1b5fa843a47ee433bbb75d4293888b71def53229" =
      .ok { Original := "gcr.io/google-containers/echoserver:1.10@sha256:cb5c1bddd1b5665e1867a7fa1b5fa843a47ee433bbb75d4293888b71def53229",
            Name := "gcr.io/google-containers/echoserver@sha256:cb5c1bddd1b5665e1867a7fa1b5fa843a47ee433bbb75d4293888b71def53229",
            Registry := "gcr.io", Repository := "google-containers/echoserver", Tag := "1.10",
            Digest := "sha256:cb5c1bddd1b5665e1867a7fa1b5fa843a47ee433bbb75d4293888b71def53229" } ∧
    ParseReference "gcr.io/google-containers/echoserver:1.10" =
      .ok { Original := "gcr.io/google-containers/echoserver:1.10",
            Name := "gcr.io/google-containers/echoserver:1.10",
            Registry := "gcr.io", Repository := "google-containers/echoserver", Tag := "1.10",
            Digest := "" } ∧
    ParseReference "kubedb/ui-server:1.10-v2" =
      .ok { Original := "kubedb/ui-server:1.10-v2",
            Name := "index.docker.io/kubedb/ui-server:1.10-v2",
            Registry := "index.docker.io", Repository := "kubedb/ui-server", Tag := "1.10-v2",
            Digest := "" } ∧
    ParseReference "docker.io/kubedb/postgres-init@sha256:48aeb8859d8245d82788836918c817d1ff84dfc9e81612f3ee8e9e22b6e3e8a5" =
      .ok { Original := "docker.io/kubedb/postgres-init@sha256:48aeb8859d8245d82788836918c817d1ff84dfc9e81612f3ee8e9e22b6e3e8a5",
            Name := "index.docker.io/kubedb/postgres-init@sha256:48aeb8859d8245d82788836918c817d1ff84dfc9e81612f3ee8e9e22b6e3e8a5",
            Registry := "index.docker.io", Repository := "kubedb/postgres-init", Tag := "",
            Digest := "sha256:48aeb8859d8245d82788836918c817d1ff84dfc9e81612f3ee8e9e22b6e3e8a5" } ∧
    ParseReference "nginx:1.0.1" =
      .ok { Original := "nginx:1.0.1",
            Name := "index.docker.io/library/nginx:1.0.1",
            Registry := "index.docker.io", Repository := "library/nginx", Tag := "1.0.1",
            Digest := "" } ∧
    ParseReference "nginx:1.0.1@sha256:d586384381a0e6834cef73d432b1486f0b86334cb92e54256def62dd403f82ab" =
      .ok { Original := "nginx:1.0.1@sha256:d586384381a0e6834cef73d432b1486f0b86334cb92e54256def62dd403f82ab",
            Name := "index.docker.io/library/nginx@sha256:d586384381a0e6834cef73d432b1486f0b86334cb92e54256def62dd403f82ab",
            Registry := "index.docker.io", Repository := "library/nginx", Tag := "1.0.1",
            Digest := "sha256:d586384381a0e6834cef73d432b1486f0b86334cb92e54256def62dd403f82ab" } ∧
    ParseReference "nginx:latest@sha256:d586384381a0e6834cef73d432b1486f0b86334cb92e54256def62dd403f82ab" =
      .ok { Original := "nginx:latest@sha256:d586384381a0e6834cef73d432b1486f0b86334cb92e54256def62dd403f82ab",
            Name := "index.docker.io/library/nginx@sha256:d586384381a0e6834cef73d432b1486f0b86334cb92e54256def62dd403f82ab",
            Registry := "index.docker.io", Repository := "library/nginx", Tag := "latest",
            Digest := "sha256:d586384381a0e6834cef73d432b1486f0b86334cb92e54256def62dd403f82ab" } ∧
    ParseReference "registry.k8s.io/ingress-nginx/controller:v1.9.3" =
      .ok { Original := "registry.k8s.io/ingress-nginx/controller:v1.9.3",
            Name := "registry.k8s.io/ingress-nginx/controller:v1.9.3",
            Registry := "registry.k8s.io", Repository := "ingress-nginx/controller", Tag := "v1.9.3",
            Digest := "" } := by
  decide!

/-- C4: for every input `ParseReference` parses successfully, `Name` is
`Registry/Repository@Digest` when `Digest` is non-empty, otherwise
`Registry/Repository:Tag` when `Tag` is non-empty, otherwise
`Registry/Repository`.  For every input `base:tag@d` carrying both a tag and a
digest that parses, `Tag` is `tag`, `Digest` is `d` and `Name` is
`Registry/Repository@d`, without the tag.  Appending a valid digest to a
reference that parses gives a reference that parses to the same registry,
repository and tag.  Every `h/p:tag@d` with a registry host `h`, a non-empty
path `p`, a valid tag and a valid digest does parse, with `Tag = tag`.  The
fixture `docker.io/library/mariadb:10.8.2@sha256:8040...15b0` gives the `Name`
`index.docker.io/library/mariadb@sha256:8040...15b0` and the `Tag` `10.8.2`. -/
theorem ParseReference_name :
    (∀ (s : String) (img : Image), ParseReference s = .ok img →
      (img.Digest ≠ "" →
        img.Name = img.Registry ++ "/" ++ img.Repository ++ "@" ++ img.Digest) ∧
      (img.Digest = "" → img.Tag ≠ "" →
        img.Name = img.Registry ++ "/" ++ img.Repository ++ ":" ++ img.Tag) ∧
      (img.Digest = "" → img.Tag = "" →
        img.Name = img.Registry ++ "/" ++ img.Repository)) ∧
    (∀ (base tag d : String) (img : Image),
      ':' ∉ tag.data → '/' ∉ tag.data → '@' ∉ d.data →
      ParseReference (base ++ ":" ++ tag ++ "@" ++ d) = .ok img →
      img.Tag = tag ∧ img.Digest = d ∧
        img.Name = img.Registry ++ "/" ++ img.Repository ++ "@" ++ d) ∧
    (∀ (r d : String) (img : Image),
      '@' ∉ r.data → validDigest d.data = true → ParseReference r = .ok img →
      ParseReference (r ++ "@" ++ d) =
        .ok { img with Original := r ++ "@" ++ d, Digest := d,
                       Name := img.Registry ++ "/" ++ img.Repository ++ "@" ++ d }) ∧
    (∀ (h p tag d : String),
      isRegistryHost h.data = true → '/' ∉ h.data → p ≠ "" →
      validTag tag.data = true → validDigest d.data = true →
      ParseReference (h ++ "/" ++ p ++ ":" ++ tag ++ "@" ++ d) =
        .ok { Original := h ++ "/" ++ p ++ ":" ++ tag ++ "@" ++ d,
              Name := normalizeRegistry h.data ++ "/" ++
                repositoryOf (normalizeRegistry h.data) p.data ++ "@" ++ d,
              Registry := normalizeRegistry h.data,
              Repository := repositoryOf (normalizeRegistry h.data) p.data,
              Tag := tag, Digest := d }) ∧
      ParseReference "docker.io/library/mariadb:10.8.2@sha256:8040983db146f729749081c6b216a19d52e0973134e2e34c0b4fd87f48bc15b0" =
        .ok { Original := "docker.io/library/mariadb:10.8.2@sha256:8040983db146f729749081c6b216a19d52e0973134e2e34c0b4fd87f48bc15b0",
              Name := "index.docker.io/library/mariadb@sha256:8040983db146f729749081c6b216a19d52e0973134e2e34c0b4fd87f48bc15b0",
              Registry := "index.docker.io", Repository := "library/mariadb", Tag := "10.8.2",
              Digest := "sha256:8040983db146f729749081c6b216a19d52e0973134e2e34c0b4fd87f48bc15b0" } := by
  refine ⟨?_, ParseReference_tag_digest, ParseReference_append_digest,
    ParseReference_host_tag_digest, by decide!⟩
  intro s img h
  rw [ParseReference_composeName s img h]
  refine ⟨?_, ?_, ?_⟩
  · intro hd
    simp [composeName, hd]
  · intro hd ht
    simp [composeName, hd, ht]
  · intro hd ht
    simp [composeName, hd, ht]

theorem ParseReference_name_witness :
    ParseReference ("gcr.io/google-containers/echoserver" ++ ":" ++ "1.10" ++ "@" ++
        "sha256:cb5c1bddd1b5665e1867a7fa1b5fa843a47ee433bbb75d4293888b71def53229") =
        .ok gcrImage ∧
      gcrImage.Tag = "1.10" ∧
      gcrImage.Digest =
        "sha256:cb5c1bddd1b5665e1867a7fa1b5fa843a47ee433bbb75d4293888b71def53229" ∧
      gcrImage.Name = gcrImage.Registry ++ "/" ++ gcrImage.Repository ++ "@" ++
        "sha256:cb5c1bddd1b5665e1867a7fa1b5fa843a47ee433bbb75d4293888b71def53229" :=
  ⟨by decide!,
    ParseReference_name.2.1 "gcr.io/google-containers/echoserver" "1.10"
      "sha256:cb5c1bddd1b5665e1867a7fa1b5fa843a47ee433bbb75d4293888b71def53229" gcrImage
      (by decide) (by decide) (by decide) (by decide!)⟩

end Name
